import Mathlib

/-!
Verification of go-syncstorage against its specification.

The Go source is embedded shallowly: pure functions become Lean
functions, mutation of the handler pool becomes explicit state passing,
and fallible operations return `Option`/`Except`.  Collaborators that
live outside the analysed files (the `syncstorage` storage engine and
the `token` codec) are modelled from the specification where noted.
-/

namespace SyncStorage

/-! ## Constants (src/unnamed/part_001, `const` block) -/

def MAX_BSO_PER_POST_REQUEST : Nat := 100
def MAX_BSO_PAYLOAD_SIZE : Nat := 256 * 1024
def MAX_BSO_GET_LIMIT : Nat := 2500

/-! ## TwoLevelPath (src/web/syncPoolHandler_elements.go, `TwoLevelPath`)

Go slices a decimal uid string bytewise; uids match `[0-9]+` so each
byte is one character and we model the string by its character list. -/

def TwoLevelPath (uid : String) : List String :=
  let cs := uid.data
  let l := cs.length
  if 4 ≤ l then
    [String.mk [cs.getD (l-1) ' ', cs.getD (l-2) ' '],
     String.mk [cs.getD (l-3) ' ', cs.getD (l-4) ' ']]
  else if 2 ≤ l then
    [String.mk [cs.getD (l-1) ' ', cs.getD (l-2) ' ']]
  else
    []

/-! ## Token parsing loop (src/unnamed/part_001, `Context.hawk`, step 2)

`token.ParseToken` itself is outside the analysed files; the loop is
parametrised by the parse outcome each secret produces.  In the Go code
the loop body is

    parsedToken, tokenError = token.ParseToken([]byte(secret), auth.Credentials.ID)
    if err != nil { continue }

where `err` is the hawk-header error from step 1, which is `nil` on
this path (a non-nil `err` returned earlier), so the guard never fires
and there is no `break`: every iteration overwrites the pair, and the
final value is the result of the *last* secret. -/

inductive TokenError where
  | invalid
  | expired
deriving DecidableEq, Repr

structure Token where
  uid : Nat
deriving DecidableEq, Repr

abbrev ParseResult := Except TokenError Token

def hawkTokenLoop (parse : String → ParseResult) (secrets : List String) : ParseResult :=
  secrets.foldl (fun _ secret => parse secret) (Except.error TokenError.invalid)

/-- Modelled from the spec: the parse outcomes of a configured secret
list containing a current secret `new` (which validates the token,
yielding uid 42) and a rotated-in secret `old` (under which the token's
MAC does not verify, so the parse is `Invalid`). -/
def parseNewOld : String → ParseResult :=
  fun s => if s = "new" then Except.ok ⟨42⟩ else Except.error TokenError.invalid

/-! ## HTTP responses

A handler's observable effect on the `http.ResponseWriter`: the status
code, the accumulated body, and the headers the analysed code sets.
Writing a body without an explicit `WriteHeader` defaults the status to
200 in Go, modelled by `status := 200`. -/

structure HttpResponse where
  status : Nat
  body : String
  contentType : Option String := none
  xLastModified : Option String := none
deriving DecidableEq, Repr

/-- Go's `http.Error(w, msg, code)`: sets `Content-Type: text/plain;
charset=utf-8`, the status, and writes `msg` followed by a newline. -/
def httpError (msg : String) (code : Nat) : HttpResponse :=
  { status := code, body := msg ++ "\n", contentType := some "text/plain; charset=utf-8" }

/-- Go's `http.NotFound(w, r)` = `http.Error(w, "404 page not found", 404)`. -/
def notFoundResponse : HttpResponse :=
  httpError "404 page not found" 404

/-! ## JSON values and `encoding/json` marshalling

A small JSON AST standing for the `interface{}` values the handlers
pass to the response shaper.  `render` is compact marshalling as
`json.Marshal` produces it: no whitespace, and control characters in
strings escaped (so the output of `render` never contains a raw
newline). -/

def digitOf (n : Nat) : Char :=
  match n with
  | 0 => '0' | 1 => '1' | 2 => '2' | 3 => '3' | 4 => '4'
  | 5 => '5' | 6 => '6' | 7 => '7' | 8 => '8' | _ => '9'

def natDigitsAux : Nat → Nat → List Char
  | 0, n => [digitOf n]
  | fuel+1, n =>
      if n < 10 then [digitOf n]
      else natDigitsAux fuel (n / 10) ++ [digitOf (n % 10)]

/-- Decimal digits of `n` (fuel-based so it reduces in the kernel). -/
def natDigits (n : Nat) : List Char :=
  natDigitsAux n n

/-- Decimal rendering of an integer, as `json.Marshal` emits it. -/
def intToString (n : Int) : String :=
  if n < 0 then "-" ++ String.mk (natDigits n.natAbs) else String.mk (natDigits n.natAbs)

inductive Json where
  | null
  | bool (b : Bool)
  | num (n : Int)
  | str (s : String)
  | arr (elems : List Json)
  | obj (fields : List (String × Json))

def Json.isArr : Json → Bool
  | .arr _ => true
  | _ => false

def Json.isNull : Json → Bool
  | .null => true
  | _ => false

def escapeChar (c : Char) : String :=
  if c = '"' then "\\\""
  else if c = '\\' then "\\\\"
  else if c = '\n' then "\\n"
  else if c = '\r' then "\\r"
  else if c = '\t' then "\\t"
  else String.singleton c

def escapeList : List Char → String
  | [] => ""
  | c :: cs => escapeChar c ++ escapeList cs

def escapeString (s : String) : String :=
  escapeList s.data

mutual

def render : Json → String
  | .null => "null"
  | .bool true => "true"
  | .bool false => "false"
  | .num n => intToString n
  | .str s => "\"" ++ escapeString s ++ "\""
  | .arr xs => "[" ++ renderElems xs ++ "]"
  | .obj fs => "\x7b" ++ renderFields fs ++ "\x7d"

def renderElems : List Json → String
  | [] => ""
  | [x] => render x
  | x :: y :: xs => render x ++ "," ++ renderElems (y :: xs)

def renderFields : List (String × Json) → String
  | [] => ""
  | [(k, v)] => "\"" ++ escapeString k ++ "\":" ++ render v
  | (k, v) :: f :: fs =>
      "\"" ++ escapeString k ++ "\":" ++ render v ++ "," ++ renderFields (f :: fs)

end

/-! ## Response shaper (src/unnamed/part_001, `Context.NewLine` /
`Context.JSON` / `Context.JsonNewline`)

`NewLine` marshals `val`, then probes whether the document is an array
by `json.Unmarshal(js, &vals)` with `vals : []json.RawMessage`.  That
unmarshal succeeds exactly when the document is a JSON array — or the
JSON literal `null`, which `encoding/json` decodes into a slice as a
no-op without error, leaving `vals` nil so that the loop writes
nothing.  The match below reflects those three cases of the probe. -/

def newlineChar : String := "\n"

/-- Sequential `w.Write` calls accumulate into the response body. -/
def concatAll : List String → String
  | [] => ""
  | s :: rest => s ++ concatAll rest

def NewLine (val : Json) : HttpResponse :=
  let js := render val
  match val with
  | .arr xs =>
      { status := 200,
        contentType := some "application/newlines",
        body := concatAll (xs.map (fun raw => render raw ++ newlineChar)) }
  | .null =>
      -- json.Unmarshal("null", &vals) returns no error and leaves vals nil
      { status := 200, contentType := some "application/newlines", body := "" }
  | _ =>
      { status := 200, contentType := some "application/newlines",
        body := js ++ newlineChar }

def JSON (val : Json) : HttpResponse :=
  { status := 200, contentType := some "application/json", body := render val }

def JsonNewline (accept : String) (val : Json) : HttpResponse :=
  if accept = "application/newlines" then NewLine val else JSON val

/-! ## Validation predicates (syncstorage package, outside the analysed
files; the handlers under src/ call them) -/

/-- Modelled from the spec: `syncstorage.CollectionNameOk` — collection
names are 1 to 32 characters drawn from ASCII letters, digits,
underscore and hyphen. -/
def CollectionNameOk (name : String) : Bool :=
  decide (1 ≤ name.length) && decide (name.length ≤ 32) &&
    name.data.all (fun c => c.isAlphanum || c = '_' || c = '-')

/-- Modelled from the spec: `syncstorage.BSOIdOk` — BSO ids are 1 to 64
URL-safe characters (ASCII letters, digits, and `-`/`_`/`.`/`~`). -/
def BSOIdOk (id : String) : Bool :=
  decide (1 ≤ id.length) && decide (id.length ≤ 64) &&
    id.data.all (fun c => c.isAlphanum || c = '-' || c = '_' || c = '.' || c = '~')

/-! ## Storage collaborator

The per-uid storage engine (`syncstorage.Dispatch` and the SQL layer
beneath it) is outside the analysed files; the spec treats it as a thin
KV-over-SQL collaborator.  Every claim fixes a single uid, so the model
carries one user's store.  `now` is the engine's clock used for
`modified` timestamps. -/

structure BSORecord where
  cId : Int
  bId : String
deriving DecidableEq, Repr

inductive StorageErr where
  | notFound
  | invalidCollectionName
  | payloadTooBig
deriving DecidableEq, Repr

def StorageErr.text : StorageErr → String
  | .notFound => "syncstorage: record not found"
  | .invalidCollectionName => "syncstorage: invalid collection name"
  | .payloadTooBig => "syncstorage: payload too large"

/-- The body of a single-BSO PUT (the anonymous struct decoded in
`Context.hBsoPUT`): every field optional. -/
structure PutFields where
  payload : Option String := none
  sortindex : Option Int := none
  ttl : Option Int := none
deriving DecidableEq, Repr

/-- One item of a bulk POST (`syncstorage.PutBSOInput`): a BSO id (Go
zero value `""` when the field is missing) plus the optional fields. -/
structure PostItem where
  id : String := ""
  payload : Option String := none
  sortindex : Option Int := none
  ttl : Option Int := none
deriving DecidableEq, Repr

/-- Modelled from the spec: the store — named collections (with dense
ids in creation order) and the BSO records written so far. -/
structure Store where
  collections : List (String × Int)
  bsos : List BSORecord := []
  now : Nat := 0
deriving DecidableEq, Repr

/-- Modelled from the spec: `Dispatch.GetCollectionId` — the id of a
named collection, or `ErrNotFound`. -/
def Store.getCollectionId (st : Store) (name : String) : Option Int :=
  (st.collections.find? (fun kv => kv.1 == name)).map (fun kv => kv.2)

/-- Modelled from the spec: `Dispatch.CreateCollection` — assigns the
next dense id to the name. -/
def Store.createCollection (st : Store) (name : String) : Int × Store :=
  let cId : Int := (st.collections.length : Int) + 1
  (cId, { st with collections := st.collections ++ [(name, cId)] })

/-- Modelled from the spec: `Dispatch.GetBSO` — the stored record, or
`ErrNotFound`. -/
def Store.getBSO (st : Store) (cId : Int) (bId : String) : Option BSORecord :=
  st.bsos.find? (fun b => b.cId == cId && b.bId == bId)

/-- Modelled from the spec: `Dispatch.PutBSO` — rejects a payload over
256 KB with `ErrPayloadTooBig`, otherwise records the write under
`(cId, bId)` and returns the modified timestamp. -/
def Store.putBSO (st : Store) (cId : Int) (bId : String) (body : PutFields) :
    Except StorageErr (Nat × Store) :=
  match body.payload with
  | some p =>
      if MAX_BSO_PAYLOAD_SIZE < p.length then Except.error StorageErr.payloadTooBig
      else Except.ok (st.now, { st with bsos := st.bsos ++ [⟨cId, bId⟩] })
  | none => Except.ok (st.now, { st with bsos := st.bsos ++ [⟨cId, bId⟩] })

/-- Modelled from the spec: `syncstorage.ModifiedToString` — renders a
millisecond timestamp as two-decimal seconds. -/
def ModifiedToString (m : Nat) : String :=
  let r := m % 1000
  toString (m / 1000) ++ "." ++
    (if r < 10 then "00" ++ toString r
     else if r < 100 then "0" ++ toString r
     else toString r)

def internalError : HttpResponse :=
  httpError "Internal Server Error" 500

/-! ## getcid (src/unnamed/part_001, `Context.getcid`)

Go's named results start at their zero values, so on every error path
the returned collection id is 0.  `Dispatch.CreateCollection` is
modelled as always succeeding. -/

def getcid (st : Store) (collection : String) (automake : Bool) :
    (Int × Option StorageErr) × Store :=
  if CollectionNameOk collection = false then
    ((0, some StorageErr.invalidCollectionName), st)
  else
    match st.getCollectionId collection with
    | some cId => ((cId, none), st)
    | none =>
        if automake then
          let (cId, st') := st.createCollection collection
          ((cId, none), st')
        else
          ((0, some StorageErr.notFound), st)

/-! ## Request handlers (src/unnamed/part_001) -/

/-- The JSON document a stored BSO marshals to (serialisation details
of the BSO body are outside the analysed files). -/
def bsoJson (b : BSORecord) : Json :=
  Json.obj [("id", Json.str b.bId)]

/-- Embeds `Context.hCollectionGET`, the collection-resolution step (lines
402–414): on `ErrNotFound` respond `200 []` as `application/json`; on
any other `getcid` error call `c.Error` (500); otherwise continue into
query parsing and the fetch, abstracted here as `proceed cId`. -/
def hCollectionGET (st : Store) (collection : String) (proceed : Int → HttpResponse) :
    HttpResponse :=
  let r := getcid st collection false
  match r.1.2 with
  | some StorageErr.notFound =>
      { status := 200, body := "[]", contentType := some "application/json" }
  | some _ => internalError
  | none => proceed r.1.1

/-- Embeds `Context.hBsoGET`: validate the BSO id, resolve the collection
without auto-creating, fetch the BSO; `ErrNotFound` from either step
becomes `http.NotFound`, other errors become `c.Error` (500). -/
def hBsoGET (st : Store) (accept collection bId : String) : HttpResponse :=
  if BSOIdOk bId = false then httpError "Invalid bso ID" 400
  else
    let r := getcid st collection false
    match r.1.2 with
    | none =>
        match st.getBSO r.1.1 bId with
        | some bso => JsonNewline accept (bsoJson bso)
        | none => notFoundResponse
    | some StorageErr.notFound => notFoundResponse
    | some _ => internalError

/-- The per-item validation loop of `Context.hCollectionPOST` (lines
594–606): the first item with an invalid id, or failing that an
oversized payload, aborts the whole request with a 400. -/
def firstValidationError (posted : List PostItem) : Option HttpResponse :=
  posted.findSome? (fun b =>
    if BSOIdOk b.id = false then
      some (httpError "Invalid or missing Id in data" 400)
    else
      match b.payload with
      | some p =>
          if MAX_BSO_PAYLOAD_SIZE < p.length then
            some (httpError
              (b.id ++ " payload greater than max of " ++
                toString MAX_BSO_PAYLOAD_SIZE ++ " bytes") 400)
          else none
      | none => none)

/-- Modelled from the spec: `Dispatch.PostBSOs` — every validated item
is inserted; items that fail the storage insert would be reported under
`failed`, and the model's inserts always succeed. -/
def Store.postBSOs (st : Store) (cId : Int) (posted : List PostItem) :
    (Nat × List String × List (String × List String)) × Store :=
  ((st.now, posted.map (fun b => b.id), []),
   { st with bsos := st.bsos ++ posted.map (fun b => ⟨cId, b.id⟩) })

/-- The JSON document of the `PostResults` struct. -/
def postResultsJson (modified : String) (success : List String)
    (failed : List (String × List String)) : Json :=
  Json.obj
    [("modified", Json.str modified),
     ("success", Json.arr (success.map Json.str)),
     ("failed", Json.obj (failed.map (fun kv => (kv.1, Json.arr (kv.2.map Json.str)))))]

/-- Embeds `Context.hCollectionPOST` from the point where the body has been
decoded into `posted` (content-type checking and JSON/newline decoding
precede this in the source): the 100-item cap, the per-item validation
loop, collection auto-creation, TTL seconds→ms conversion, then
`Dispatch.PostBSOs` and the response. -/
def hCollectionPOST (st : Store) (accept collection : String) (posted : List PostItem) :
    HttpResponse × Store :=
  if MAX_BSO_PER_POST_REQUEST < posted.length then
    (httpError ("Exceeded " ++ toString MAX_BSO_PER_POST_REQUEST ++ " BSO per request") 413,
     st)
  else
    match firstValidationError posted with
    | some resp => (resp, st)
    | none =>
        let r := getcid st collection true
        match r.1.2 with
        | some StorageErr.invalidCollectionName =>
            (httpError StorageErr.invalidCollectionName.text 400, r.2)
        | some _ => (internalError, r.2)
        | none =>
            let converted := posted.map (fun b => { b with ttl := b.ttl.map (· * 1000) })
            let pr := Store.postBSOs r.2 r.1.1 converted
            let m := ModifiedToString pr.1.1
            let jr := JsonNewline accept (postResultsJson m pr.1.2.1 pr.1.2.2)
            ({ jr with xLastModified := some m }, pr.2)

/-- Embeds `Context.hBsoPUT`: validate the BSO id, resolve (auto-creating) the
collection, then decode the body (`body = none` models a body that is
not valid JSON).  Only `ErrNotFound` from `getcid` is checked — a bare
`return` that writes nothing, which Go turns into an empty 200; any
other `getcid` error is overwritten by the decode result, and `cId`
keeps the value `getcid` returned. -/
def hBsoPUT (st : Store) (collection bId : String) (body : Option PutFields) :
    HttpResponse × Store :=
  if BSOIdOk bId = false then (httpError "Invalid bso ID" 400, st)
  else
    let r := getcid st collection true
    if r.1.2 = some StorageErr.notFound then
      ({ status := 200, body := "" }, r.2)
    else
      match body with
      | none => (httpError "Invalid JSON" 400, r.2)
      | some bso =>
          let bso := { bso with ttl := bso.ttl.map (· * 1000) }
          match Store.putBSO r.2 r.1.1 bId bso with
          | Except.error StorageErr.payloadTooBig =>
              (httpError "Request Entity Too Large" 413, r.2)
          | Except.error e => (httpError e.text 400, r.2)
          | Except.ok (modified, st2) =>
              let m := ModifiedToString modified
              ({ status := 200, body := m, contentType := some "text/plain",
                 xLastModified := some m }, st2)

/-! ## Handler pool (src/web/syncPoolHandler_elements.go)

`poolElement` holds a uid and its `SyncUserHandler`, abstracted to its
Stopped flag (`StopHTTP()` sets it, `IsStopped()` reads it).  The pool
state is the `elements` map (an association list), the LRU list with
the most recently used element at the head (Go's `Front`), and the
`lrumap` index, modelled by its key set (the node a key maps to is the
unique LRU node carrying that uid).  Filesystem preparation and
`syncstorage.NewDB` are modelled as always succeeding; they do not
touch the pool state. -/

structure poolElement where
  uid : String
  stopped : Bool
deriving DecidableEq, Repr

structure handlerPool where
  elements : List (String × poolElement)
  lru : List poolElement
  lrumap : List String
  maxPoolSize : Nat
deriving DecidableEq, Repr

inductive PoolErr where
  | elementStopped
deriving DecidableEq, Repr

/-- The loop body of `cleanupHandlers` after `StopHTTP()`: remove the
back LRU node and delete its uid from `lrumap` and `elements`. -/
def cleanupRemove (p : handlerPool) (element : poolElement) : handlerPool :=
  { p with
    lru := p.lru.dropLast,
    lrumap := p.lrumap.filter (fun u => u ≠ element.uid),
    elements := p.elements.filter (fun kv => kv.1 ≠ element.uid) }

/-- Embeds `handlerPool.cleanupHandlers`: starting from the LRU back, pop at
most `maxClean` elements; `StopHTTP()` each popped handler, then remove
its node from `lru` and its uid from `lrumap` and `elements`.  Returns
the new pool state and the popped (now stopped) handlers in pop
order. -/
def cleanupHandlers (p : handlerPool) (maxClean : Nat) :
    handlerPool × List poolElement :=
  match maxClean with
  | 0 => (p, [])
  | m + 1 =>
      match p.lru.getLast? with
      | none => (p, [])
      | some element =>
          let stoppedElement := { element with stopped := true }
          let rest := cleanupHandlers (cleanupRemove p element) m
          (rest.1, stoppedElement :: rest.2)

/-- Embeds `handlerPool.stopHandlers`: `cleanupHandlers` over the whole LRU. -/
def stopHandlers (p : handlerPool) : handlerPool × List poolElement :=
  cleanupHandlers p p.lru.length

/-- Map lookup of `p.elements[uid]`. -/
def handlerPool.lookup (p : handlerPool) (uid : String) : Option poolElement :=
  (p.elements.find? (fun kv => kv.1 == uid)).map (fun kv => kv.2)

/-- Embeds `handlerPool.getElement`: returns the pool state after the call,
the element handed to the caller (if any), whether it was created, and
the error.  On a hit with a stopped handler the call fails with
`errElementStopped`; on a hit otherwise the node `lrumap[uid]` is moved
to the LRU front; on a miss, when `lru.Len() > maxPoolSize` the pool
lock is dropped and `cleanupHandlers (1 + maxPoolSize/10)` runs before
the new element is built and pushed to the front. -/
def getElement (p : handlerPool) (uid : String) :
    handlerPool × Option poolElement × Bool × Option PoolErr :=
  match p.lookup uid with
  | some element =>
      if element.stopped then
        (p, none, false, some PoolErr.elementStopped)
      else
        ({ p with lru := element :: p.lru.eraseP (fun x => x.uid == uid) },
         some element, false, none)
  | none =>
      let p1 :=
        if p.maxPoolSize < p.lru.length then
          (cleanupHandlers p (1 + p.maxPoolSize / 10)).1
        else p
      let element : poolElement := { uid := uid, stopped := false }
      ({ p1 with
          elements := (uid, element) :: p1.elements,
          lru := element :: p1.lru,
          lrumap := uid :: p1.lrumap },
       some element, true, none)

/-- The pool invariants of the spec, phrased over the list model:
nodup keys throughout, `elements` keys ⟷ `lrumap` keys ⟷ LRU uids,
every LRU node's value stored in `elements` under its own uid, and each
map entry keyed by its element's uid. -/
def poolWF (p : handlerPool) : Prop :=
  (p.elements.map Prod.fst).Nodup ∧
  (p.lru.map poolElement.uid).Nodup ∧
  p.lrumap.Nodup ∧
  (∀ kv ∈ p.elements, kv.1 ∈ p.lrumap ∧ kv.1 ∈ p.lru.map poolElement.uid) ∧
  (∀ u ∈ p.lrumap, u ∈ p.elements.map Prod.fst) ∧
  (∀ e ∈ p.lru, (e.uid, e) ∈ p.elements) ∧
  (∀ kv ∈ p.elements, kv.2.uid = kv.1)

instance (p : handlerPool) : Decidable (poolWF p) := by
  unfold poolWF; infer_instance

/-! # Theorems -/

/-! ## Helper lemmas -/

theorem getD_rev {α : Type} (l : List α) (i : Nat) (d : α) (h : i < l.length) :
    l.getD (l.length - 1 - i) d = l.reverse.getD i d := by
  rw [List.getD_eq_getElem?_getD, List.getD_eq_getElem?_getD, List.getElem?_reverse h]

theorem digitOf_ne_newline (n : Nat) : digitOf n ≠ '\n' := by
  unfold digitOf
  split <;> decide

theorem natDigitsAux_count (fuel n : Nat) : ((natDigitsAux fuel n).count '\n') = 0 := by
  induction fuel generalizing n with
  | zero => simp [natDigitsAux, List.count_cons, digitOf_ne_newline n]
  | succ fuel ih =>
      rw [natDigitsAux]
      split
      · simp [List.count_cons, digitOf_ne_newline n]
      · simp [List.count_append, List.count_cons, ih (n / 10),
          digitOf_ne_newline (n % 10)]

theorem natDigits_count (n : Nat) : ((natDigits n).count '\n') = 0 :=
  natDigitsAux_count n n

theorem intToString_count (n : Int) : ((intToString n).data.count '\n') = 0 := by
  unfold intToString
  split
  · simp [String.data_append, List.count_append, natDigits_count]
  · simp [natDigits_count]

theorem escapeChar_count (c : Char) : ((escapeChar c).data.count '\n') = 0 := by
  unfold escapeChar
  split
  · decide
  · split
    · decide
    · split
      · decide
      · split
        · decide
        · split
          · decide
          · rename_i h1 h2 h3 h4 h5
            simp [String.singleton, List.count_cons]
            exact h3

theorem escapeList_count (cs : List Char) : ((escapeList cs).data.count '\n') = 0 := by
  induction cs with
  | nil => decide
  | cons c cs ih =>
      simp [escapeList, String.data_append, List.count_append, escapeChar_count, ih]

mutual

theorem render_count : ∀ j : Json, ((render j).data.count '\n') = 0
  | .null => by decide
  | .bool true => by decide
  | .bool false => by decide
  | .num n => by rw [render]; exact intToString_count n
  | .str s => by
      rw [render]
      simp [String.data_append, List.count_append, escapeString, escapeList_count]
  | .arr xs => by
      rw [render]
      simp [String.data_append, List.count_append, renderElems_count xs]
  | .obj fs => by
      rw [render]
      simp [String.data_append, List.count_append, renderFields_count fs]

theorem renderElems_count : ∀ xs : List Json, ((renderElems xs).data.count '\n') = 0
  | [] => by decide
  | [x] => by rw [renderElems]; exact render_count x
  | x :: y :: xs => by
      rw [renderElems]
      simp [String.data_append, List.count_append, render_count x,
        renderElems_count (y :: xs)]

theorem renderFields_count :
    ∀ fs : List (String × Json), ((renderFields fs).data.count '\n') = 0
  | [] => by decide
  | [(k, v)] => by
      rw [renderFields]
      simp [String.data_append, List.count_append, escapeString, escapeList_count,
        render_count v]
  | (k, v) :: f :: fs => by
      rw [renderFields]
      simp [String.data_append, List.count_append, escapeString, escapeList_count,
        render_count v, renderFields_count (f :: fs)]

end

theorem concatAll_lines_count (xs : List Json) :
    ((concatAll (xs.map (fun raw => render raw ++ newlineChar))).data.count '\n')
      = xs.length := by
  induction xs with
  | nil => decide
  | cons x xs ih =>
      simp only [List.map_cons, concatAll, String.data_append, List.count_append, ih]
      simp [newlineChar, render_count x, List.count_cons]
      omega

/-! ## Claims -/

/-- C6: `TwoLevelPath` is a total function on uid strings: writing the
character list of the uid reversed, a uid of length ≥ 4 maps to the
first two reversed characters and the following two as the two fan-out
directories, a uid of length 2 or 3 maps to the first two reversed
characters only, and a shorter uid maps to the empty list; in
particular `TwoLevelPath "12345678" = ["87", "65"]` and no input length
indexes out of range. -/
theorem C6_TwoLevelPath_spec :
    (∀ (uid : String) (c0 c1 c2 c3 : Char) (rest : List Char),
        uid.data.reverse = c0 :: c1 :: c2 :: c3 :: rest →
        TwoLevelPath uid = [String.mk [c0, c1], String.mk [c2, c3]]) ∧
    (∀ (uid : String) (c0 c1 : Char) (rest : List Char),
        uid.data.reverse = c0 :: c1 :: rest → rest.length < 2 →
        TwoLevelPath uid = [String.mk [c0, c1]]) ∧
    (∀ uid : String, uid.data.length < 2 → TwoLevelPath uid = []) ∧
    TwoLevelPath "12345678" = ["87", "65"] := by
  refine ⟨?_, ?_, ?_, by decide⟩
  · intro uid c0 c1 c2 c3 rest h
    have hlen : uid.data.length = rest.length + 4 := by
      have h2 := congrArg List.length h
      simpa using h2
    have h0 : uid.data.getD (uid.data.length - 1) ' ' = c0 := by
      have h' := getD_rev uid.data 0 ' ' (by omega)
      rw [h] at h'
      simpa using h'
    have h1 : uid.data.getD (uid.data.length - 2) ' ' = c1 := by
      have h' := getD_rev uid.data 1 ' ' (by omega)
      rw [h] at h'
      rw [show uid.data.length - 1 - 1 = uid.data.length - 2 by omega] at h'
      simpa using h'
    have hx2 : uid.data.getD (uid.data.length - 3) ' ' = c2 := by
      have h' := getD_rev uid.data 2 ' ' (by omega)
      rw [h] at h'
      rw [show uid.data.length - 1 - 2 = uid.data.length - 3 by omega] at h'
      simpa using h'
    have hx3 : uid.data.getD (uid.data.length - 4) ' ' = c3 := by
      have h' := getD_rev uid.data 3 ' ' (by omega)
      rw [h] at h'
      rw [show uid.data.length - 1 - 3 = uid.data.length - 4 by omega] at h'
      simpa using h'
    simp only [TwoLevelPath]
    rw [if_pos (by omega)]
    rw [h0, h1, hx2, hx3]
  · intro uid c0 c1 rest h hrest
    have hlen : uid.data.length = rest.length + 2 := by
      have h2 := congrArg List.length h
      simpa using h2
    have h0 : uid.data.getD (uid.data.length - 1) ' ' = c0 := by
      have h' := getD_rev uid.data 0 ' ' (by omega)
      rw [h] at h'
      simpa using h'
    have h1 : uid.data.getD (uid.data.length - 2) ' ' = c1 := by
      have h' := getD_rev uid.data 1 ' ' (by omega)
      rw [h] at h'
      rw [show uid.data.length - 1 - 1 = uid.data.length - 2 by omega] at h'
      simpa using h'
    simp only [TwoLevelPath]
    rw [if_neg (by omega), if_pos (by omega)]
    rw [h0, h1]
  · intro uid h
    simp only [TwoLevelPath]
    rw [if_neg (by omega), if_neg (by omega)]

/-- C6 witness: the general equations applied at uid `"12345678"`. -/
theorem C6_TwoLevelPath_witness :
    TwoLevelPath "12345678" = [String.mk ['8', '7'], String.mk ['6', '5']] :=
  C6_TwoLevelPath_spec.1 "12345678" '8' '7' '6' '5' ['4', '3', '2', '1'] (by decide)

/-- C1: the multi-secret loop in `Context.hawk` does not stop at the
first successful parse: every iteration overwrites the result, so the
loop yields the outcome of the last configured secret.  With a secret
list whose first secret parses the token (uid 42) and whose second
yields `Invalid`, the final result is `Invalid` and the request is
rejected with 400 instead of proceeding. -/
theorem C1_hawkTokenLoop_lastSecretWins :
    parseNewOld "new" = Except.ok ⟨42⟩ ∧
    hawkTokenLoop parseNewOld ["new", "old"] = Except.error TokenError.invalid ∧
    hawkTokenLoop parseNewOld ["new", "old"] ≠ Except.ok ⟨42⟩ := by
  refine ⟨rfl, rfl, fun h => Except.noConfusion h⟩

/-- C7 counterexample: a value that marshals to the JSON document
`null` (not an array) produces an empty body from `NewLine`, not the
whole document followed by a newline, because `json.Unmarshal` decodes
`null` into a `[]json.RawMessage` without error, leaving it nil. -/
theorem C7_NewLine_counterexample :
    (NewLine Json.null).body = "" ∧
    (NewLine Json.null).body ≠ render Json.null ++ "\n" := by
  exact ⟨rfl, by decide⟩

/-- C7 (amended): under `Accept: application/newlines` the shaper sets
`Content-Type: application/newlines` and emits: for a value marshalling
to a JSON array, each element followed by `\n` (an array of n elements
produces exactly n newline-terminated lines); for a value marshalling
to `null`, an empty body; otherwise the whole document followed by a
single `\n`. -/
theorem C7_NewLine_spec (val : Json) :
    (NewLine val).contentType = some "application/newlines" ∧
    (∀ xs, val = Json.arr xs →
        (NewLine val).body = concatAll (xs.map (fun raw => render raw ++ newlineChar)) ∧
        ((NewLine val).body.data.count '\n') = xs.length) ∧
    (val.isArr = false → val.isNull = false →
        (NewLine val).body = render val ++ "\n") ∧
    (val = Json.null → (NewLine val).body = "") ∧
    JsonNewline "application/newlines" val = NewLine val := by
  refine ⟨?_, ?_, ?_, ?_, ?_⟩
  · cases val <;> rfl
  · intro xs h
    subst h
    exact ⟨rfl, concatAll_lines_count xs⟩
  · intro h1 h2
    cases val <;> first
      | rfl
      | simp_all [Json.isArr, Json.isNull]
  · intro h; subst h; rfl
  · rfl

/-- C7 witness: the amended statement evaluated on a three-element
array, producing exactly three newline-terminated lines. -/
theorem C7_NewLine_witness :
    (NewLine (Json.arr [Json.num 1, Json.num 2, Json.num 3])).body.data.count '\n' = 3 :=
  ((C7_NewLine_spec (Json.arr [Json.num 1, Json.num 2, Json.num 3])).2.1
    [Json.num 1, Json.num 2, Json.num 3] rfl).2

theorem getCollectionId_none (st : Store) (collection : String)
    (hmiss : ∀ kv ∈ st.collections, kv.1 ≠ collection) :
    st.getCollectionId collection = none := by
  unfold Store.getCollectionId
  rw [List.find?_eq_none.mpr]
  · rfl
  · intro kv hkv
    simpa using hmiss kv hkv

theorem getcid_not_found (st : Store) (collection : String)
    (hname : CollectionNameOk collection = true)
    (hmiss : ∀ kv ∈ st.collections, kv.1 ≠ collection) :
    getcid st collection false = ((0, some StorageErr.notFound), st) := by
  unfold getcid
  rw [hname]
  simp [getCollectionId_none st collection hmiss]

theorem getcid_automake (st : Store) (collection : String)
    (hname : CollectionNameOk collection = true)
    (hmiss : ∀ kv ∈ st.collections, kv.1 ≠ collection) :
    getcid st collection true =
      (((st.collections.length : Int) + 1, none),
       { st with collections :=
           st.collections ++ [(collection, (st.collections.length : Int) + 1)] }) := by
  unfold getcid
  rw [hname]
  simp [getCollectionId_none st collection hmiss, Store.createCollection]

/-- C5: when the collection named in the URL is well-formed but does
not exist, a GET on the collection (list) route responds 200 with body
`[]` and `Content-Type: application/json`, while a GET on the
single-item route responds 404. -/
theorem C5_collection_not_found (st : Store) (collection bId accept : String)
    (proceed : Int → HttpResponse)
    (hname : CollectionNameOk collection = true)
    (hmiss : ∀ kv ∈ st.collections, kv.1 ≠ collection)
    (hbid : BSOIdOk bId = true) :
    hCollectionGET st collection proceed =
      { status := 200, body := "[]", contentType := some "application/json" } ∧
    hBsoGET st accept collection bId = notFoundResponse := by
  constructor
  · unfold hCollectionGET
    rw [getcid_not_found st collection hname hmiss]
  · unfold hBsoGET
    rw [hbid, getcid_not_found st collection hname hmiss]
    simp

/-- C5 witness: a GET for the missing collection `unknown` on an empty
store: `200 []` on the list route, 404 on the single-item route. -/
theorem C5_collection_not_found_witness :
    hCollectionGET ⟨[], [], 0⟩ "unknown" (fun _ => internalError) =
      { status := 200, body := "[]", contentType := some "application/json" } ∧
    hBsoGET ⟨[], [], 0⟩ "application/json" "unknown" "id" = notFoundResponse :=
  C5_collection_not_found ⟨[], [], 0⟩ "unknown" "id" "application/json"
    (fun _ => internalError) (by decide) (by intro kv hkv; simp at hkv) (by decide)

/-- C10: a PUT to a well-formed collection name that does not yet exist
with a body that is not valid JSON returns 400 "Invalid JSON", yet the
collection has been created by the time the body is parsed: the store
is not left unchanged on this error. -/
theorem C10_put_creates_collection_before_parse (st : Store) (collection bId : String)
    (hname : CollectionNameOk collection = true)
    (hmiss : ∀ kv ∈ st.collections, kv.1 ≠ collection)
    (hbid : BSOIdOk bId = true) :
    (hBsoPUT st collection bId none).1 = httpError "Invalid JSON" 400 ∧
    (collection, (st.collections.length : Int) + 1) ∈
      (hBsoPUT st collection bId none).2.collections := by
  unfold hBsoPUT
  rw [hbid]
  rw [getcid_automake st collection hname hmiss]
  refine ⟨rfl, ?_⟩
  simp

/-- C10 witness: a PUT of invalid JSON to the missing collection
`bookmarks` on an empty store: 400, and the collection now exists. -/
theorem C10_put_creates_collection_witness :
    (hBsoPUT ⟨[], [], 0⟩ "bookmarks" "aaa" none).1 = httpError "Invalid JSON" 400 ∧
    ("bookmarks", (1 : Int)) ∈ (hBsoPUT ⟨[], [], 0⟩ "bookmarks" "aaa" none).2.collections :=
  C10_put_creates_collection_before_parse ⟨[], [], 0⟩ "bookmarks" "aaa"
    (by decide) (by intro kv hkv; simp at hkv) (by decide)

theorem firstValidationError_invalid_id (posted : List PostItem)
    (hpay : ∀ b ∈ posted, ∀ p, b.payload = some p → p.length ≤ MAX_BSO_PAYLOAD_SIZE)
    (hbad : ∃ b ∈ posted, BSOIdOk b.id = false) :
    firstValidationError posted =
      some (httpError "Invalid or missing Id in data" 400) := by
  induction posted with
  | nil => simp at hbad
  | cons b rest ih =>
      unfold firstValidationError
      rw [List.findSome?_cons]
      by_cases hid : BSOIdOk b.id = false
      · simp [hid]
      · rw [eq_comm, ← ne_eq] at hid
        have hid' : BSOIdOk b.id = true := by
          cases h : BSOIdOk b.id
          · exact absurd h.symm hid
          · rfl
        have hb : (if BSOIdOk b.id = false then
            some (httpError "Invalid or missing Id in data" 400)
            else
              match b.payload with
              | some p =>
                  if MAX_BSO_PAYLOAD_SIZE < p.length then
                    some (httpError
                      (b.id ++ " payload greater than max of " ++
                        toString MAX_BSO_PAYLOAD_SIZE ++ " bytes") 400)
                  else none
              | none => none) = none := by
          rw [hid', if_neg (by simp)]
          cases hp : b.payload with
          | none => rfl
          | some p =>
              have := hpay b (by simp) p hp
              simp [Nat.not_lt.mpr this]
        rw [hb]
        have hbad' : ∃ x ∈ rest, BSOIdOk x.id = false := by
          obtain ⟨x, hx, hxid⟩ := hbad
          rcases List.mem_cons.mp hx with h | h
          · subst h; rw [hxid] at hid'; cases hid'
          · exact ⟨x, h, hxid⟩
        exact ih (fun x hx p hp => hpay x (List.mem_cons_of_mem b hx) p hp) hbad'

/-- C4 counterexample: a two-item POST body where exactly one item has
an invalid id is not answered with per-item results — the whole request
is rejected with 400 "Invalid or missing Id in data" and the store is
untouched. -/
theorem C4_post_counterexample :
    (hCollectionPOST ⟨[], [], 0⟩ "application/json" "bookmarks"
        [⟨"ok-id", none, none, none⟩, ⟨"bad id", none, none, none⟩]).1
      = httpError "Invalid or missing Id in data" 400 ∧
    (hCollectionPOST ⟨[], [], 0⟩ "application/json" "bookmarks"
        [⟨"ok-id", none, none, none⟩, ⟨"bad id", none, none, none⟩]).2
      = ⟨[], [], 0⟩ := by
  refine ⟨by decide, by decide⟩

/-- C4 (amended): a POST body with more than 100 items is rejected with
413; a body of at most 100 items whose payloads are within bounds but
in which some item has an invalid id is rejected as a whole with 400
"Invalid or missing Id in data" (no per-item success/failed report),
leaving the store unchanged. -/
theorem C4_post_limits (st : Store) (accept collection : String)
    (posted : List PostItem) :
    (MAX_BSO_PER_POST_REQUEST < posted.length →
        hCollectionPOST st accept collection posted =
          (httpError ("Exceeded " ++ toString MAX_BSO_PER_POST_REQUEST ++
            " BSO per request") 413, st)) ∧
    (posted.length ≤ MAX_BSO_PER_POST_REQUEST →
      (∀ b ∈ posted, ∀ p, b.payload = some p → p.length ≤ MAX_BSO_PAYLOAD_SIZE) →
      (∃ b ∈ posted, BSOIdOk b.id = false) →
        hCollectionPOST st accept collection posted =
          (httpError "Invalid or missing Id in data" 400, st)) := by
  constructor
  · intro hlen
    unfold hCollectionPOST
    rw [if_pos hlen]
  · intro hlen hpay hbad
    unfold hCollectionPOST
    rw [if_neg (by omega)]
    rw [firstValidationError_invalid_id posted hpay hbad]

/-- C4 witness: the amended statement at concrete inputs — 101 items
give 413; two items with one bad id give the whole-request 400. -/
theorem C4_post_limits_witness :
    hCollectionPOST ⟨[], [], 0⟩ "application/json" "bookmarks"
        (List.replicate 101 ⟨"x", none, none, none⟩) =
      (httpError ("Exceeded " ++ toString MAX_BSO_PER_POST_REQUEST ++
        " BSO per request") 413, ⟨[], [], 0⟩) ∧
    hCollectionPOST ⟨[], [], 0⟩ "application/json" "bookmarks"
        [⟨"ok-id", none, none, none⟩, ⟨"bad", none, none, none⟩,
         ⟨"", none, none, none⟩] =
      (httpError "Invalid or missing Id in data" 400, ⟨[], [], 0⟩) :=
  ⟨(C4_post_limits ⟨[], [], 0⟩ "application/json" "bookmarks"
      (List.replicate 101 ⟨"x", none, none, none⟩)).1 (by decide),
   (C4_post_limits ⟨[], [], 0⟩ "application/json" "bookmarks"
      [⟨"ok-id", none, none, none⟩, ⟨"bad", none, none, none⟩,
       ⟨"", none, none, none⟩]).2 (by decide)
      (by intro b hb p hp; fin_cases hb <;> simp_all)
      ⟨⟨"", none, none, none⟩, by decide⟩⟩

/-- C8: `Context.hBsoPUT` only checks the `getcid` error against
`ErrNotFound` and then overwrites it with the JSON-decode result, so a
PUT whose collection name fails validation (here: a name with spaces
and punctuation) is not answered with 400/"invalid collection name":
with a valid JSON body the handler proceeds to `PutBSO` with the
zero-value collection id 0 — a write is attempted and the response is
200. -/
theorem C8_put_ignores_invalid_collection_name :
    CollectionNameOk "no spaces allowed!" = false ∧
    (hBsoPUT ⟨[], [], 0⟩ "no spaces allowed!" "bso1" (some ⟨none, none, none⟩)).1.status
      = 200 ∧
    (hBsoPUT ⟨[], [], 0⟩ "no spaces allowed!" "bso1" (some ⟨none, none, none⟩)).2.bsos
      = [⟨0, "bso1"⟩] := by
  refine ⟨by decide, by decide, by decide⟩

/-! ## Pool lemmas -/

theorem cleanupHandlers_zero (p : handlerPool) : cleanupHandlers p 0 = (p, []) := rfl

theorem getLast?_eq_none_imp {α : Type} (l : List α) (h : l.getLast? = none) : l = [] := by
  cases l with
  | nil => rfl
  | cons a as =>
      rw [List.getLast?_eq_getLast (a :: as) (by simp)] at h
      cases h

theorem cleanupHandlers_cons (p : handlerPool) (m : Nat) (e : poolElement)
    (hlast : p.lru.getLast? = some e) :
    cleanupHandlers p (m + 1) =
      ((cleanupHandlers (cleanupRemove p e) m).1,
       { e with stopped := true } :: (cleanupHandlers (cleanupRemove p e) m).2) := by
  simp [cleanupHandlers, hlast]

theorem lru_decomp (p : handlerPool) (e : poolElement)
    (hlast : p.lru.getLast? = some e) :
    p.lru.dropLast ++ [e] = p.lru := by
  have hne : p.lru ≠ [] := by
    intro h
    rw [h] at hlast
    cases hlast
  have h1 := List.dropLast_append_getLast hne
  rw [List.getLast?_eq_getLast _ hne] at hlast
  rw [Option.some.inj hlast] at h1
  exact h1

theorem nodup_keys_unique (E : List (String × poolElement))
    (h : (E.map Prod.fst).Nodup) (u : String) (a b : poolElement)
    (ha : (u, a) ∈ E) (hb : (u, b) ∈ E) : a = b := by
  induction E with
  | nil => cases ha
  | cons kv rest ih =>
      simp only [List.map_cons, List.nodup_cons] at h
      rcases List.mem_cons.mp ha with h1 | h1 <;>
        rcases List.mem_cons.mp hb with h2 | h2
      · rw [← h1] at h2
        exact congrArg Prod.snd h2.symm
      · exfalso
        apply h.1
        exact List.mem_map.mpr ⟨(u, b), h2, by rw [← h1]⟩
      · exfalso
        apply h.1
        exact List.mem_map.mpr ⟨(u, a), h1, by rw [← h2]⟩
      · exact ih h.2 h1 h2

theorem dropLast_uid_ne (p : handlerPool) (e : poolElement)
    (hnodup : (p.lru.map poolElement.uid).Nodup)
    (hlast : p.lru.getLast? = some e) :
    ∀ x ∈ p.lru.dropLast, x.uid ≠ e.uid := by
  intro x hx heq
  have hdec := lru_decomp p e hlast
  rw [← hdec, List.map_append] at hnodup
  have hd := (List.nodup_append.mp hnodup).2.2
  exact hd (List.mem_map.mpr ⟨x, hx, rfl⟩) (by simp [heq])

theorem poolWF_cleanupRemove (p : handlerPool) (e : poolElement)
    (hwf : poolWF p) (hlast : p.lru.getLast? = some e) :
    poolWF (cleanupRemove p e) := by
  obtain ⟨hE, hB, hM, hEM, hME, hBE, hKey⟩ := hwf
  have hdec := lru_decomp p e hlast
  refine ⟨?_, ?_, ?_, ?_, ?_, ?_, ?_⟩
  · exact List.Nodup.sublist ((List.filter_sublist _).map Prod.fst) hE
  · exact List.Nodup.sublist ((List.dropLast_sublist _).map poolElement.uid) hB
  · exact hM.filter _
  · intro kv hkv
    simp only [cleanupRemove, List.mem_filter, decide_eq_true_eq] at hkv
    obtain ⟨hmem, hne⟩ := hkv
    constructor
    · simp only [cleanupRemove, List.mem_filter, decide_eq_true_eq]
      exact ⟨(hEM kv hmem).1, hne⟩
    · have h2 := (hEM kv hmem).2
      rw [← hdec, List.map_append] at h2
      rcases List.mem_append.mp h2 with h | h
      · exact h
      · simp at h
        exact absurd h hne
  · intro u hu
    simp only [cleanupRemove, List.mem_filter, decide_eq_true_eq] at hu
    obtain ⟨hu1, hune⟩ := hu
    obtain ⟨kv, hkv, hkveq⟩ := List.mem_map.mp (hME u hu1)
    refine List.mem_map.mpr ⟨kv, ?_, hkveq⟩
    simp only [cleanupRemove, List.mem_filter, decide_eq_true_eq]
    exact ⟨hkv, by rw [hkveq]; exact hune⟩
  · intro x hx
    have hxB : x ∈ p.lru := (List.dropLast_sublist _).subset hx
    simp only [cleanupRemove, List.mem_filter, decide_eq_true_eq]
    exact ⟨hBE x hxB, dropLast_uid_ne p e hB hlast x hx⟩
  · intro kv hkv
    simp only [cleanupRemove, List.mem_filter, decide_eq_true_eq] at hkv
    exact hKey kv hkv.1

theorem poolWF_cleanupHandlers (p : handlerPool) (n : Nat) (hwf : poolWF p) :
    poolWF (cleanupHandlers p n).1 := by
  induction n generalizing p with
  | zero => simpa [cleanupHandlers] using hwf
  | succ m ih =>
      cases hlast : p.lru.getLast? with
      | none => simpa [cleanupHandlers, hlast] using hwf
      | some e =>
          rw [cleanupHandlers_cons p m e hlast]
          exact ih (cleanupRemove p e) (poolWF_cleanupRemove p e hwf hlast)

theorem cleanupHandlers_elements_sub (p : handlerPool) (n : Nat) :
    ∀ kv ∈ (cleanupHandlers p n).1.elements, kv ∈ p.elements := by
  induction n generalizing p with
  | zero => intro kv h; simpa [cleanupHandlers] using h
  | succ m ih =>
      cases hlast : p.lru.getLast? with
      | none => intro kv h; simpa [cleanupHandlers, hlast] using h
      | some e =>
          rw [cleanupHandlers_cons p m e hlast]
          intro kv h
          have h2 := ih (cleanupRemove p e) kv h
          simp only [cleanupRemove, List.mem_filter] at h2
          exact h2.1

theorem cleanupHandlers_lrumap_sub (p : handlerPool) (n : Nat) :
    ∀ u ∈ (cleanupHandlers p n).1.lrumap, u ∈ p.lrumap := by
  induction n generalizing p with
  | zero => intro u h; simpa [cleanupHandlers] using h
  | succ m ih =>
      cases hlast : p.lru.getLast? with
      | none => intro u h; simpa [cleanupHandlers, hlast] using h
      | some e =>
          rw [cleanupHandlers_cons p m e hlast]
          intro u h
          have h2 := ih (cleanupRemove p e) u h
          simp only [cleanupRemove, List.mem_filter] at h2
          exact h2.1

theorem cleanupHandlers_lru_take (p : handlerPool) (n : Nat) :
    (cleanupHandlers p n).1.lru = p.lru.take (p.lru.length - n) := by
  induction n generalizing p with
  | zero => simp [cleanupHandlers]
  | succ m ih =>
      cases hlast : p.lru.getLast? with
      | none =>
          have hnil := getLast?_eq_none_imp _ hlast
          simp [cleanupHandlers, hlast, hnil]
      | some e =>
          rw [cleanupHandlers_cons p m e hlast, ih]
          have hlru : (cleanupRemove p e).lru = p.lru.dropLast := rfl
          rw [hlru, List.length_dropLast, List.dropLast_eq_take, List.take_take]
          congr 1
          omega

theorem cleanupHandlers_popped_len (p : handlerPool) (n : Nat) :
    (cleanupHandlers p n).2.length = min n p.lru.length := by
  induction n generalizing p with
  | zero => simp [cleanupHandlers]
  | succ m ih =>
      cases hlast : p.lru.getLast? with
      | none =>
          have hnil := getLast?_eq_none_imp _ hlast
          simp [cleanupHandlers, hlast, hnil]
      | some e =>
          rw [cleanupHandlers_cons p m e hlast]
          have hlen : (cleanupRemove p e).lru.length = p.lru.length - 1 := by
            simp [cleanupRemove]
          have hpos : 0 < p.lru.length := by
            cases hl : p.lru with
            | nil => rw [hl] at hlast; cases hlast
            | cons a as => simp [hl]
          simp only [List.length_cons, ih, hlen]
          omega

theorem cleanupHandlers_popped_stopped (p : handlerPool) (n : Nat) :
    ∀ s ∈ (cleanupHandlers p n).2, s.stopped = true := by
  induction n generalizing p with
  | zero => intro s h; simp [cleanupHandlers] at h
  | succ m ih =>
      cases hlast : p.lru.getLast? with
      | none => intro s h; simp [cleanupHandlers, hlast] at h
      | some e =>
          rw [cleanupHandlers_cons p m e hlast]
          intro s h
          rcases List.mem_cons.mp h with h | h
          · rw [h]
          · exact ih (cleanupRemove p e) s h

theorem cleanupHandlers_removed (p : handlerPool) (n : Nat) (hwf : poolWF p) :
    ∀ s ∈ (cleanupHandlers p n).2,
      (∀ kv ∈ (cleanupHandlers p n).1.elements, kv.1 ≠ s.uid) ∧
      s.uid ∉ (cleanupHandlers p n).1.lrumap ∧
      (∀ x ∈ (cleanupHandlers p n).1.lru, x.uid ≠ s.uid) := by
  induction n generalizing p with
  | zero => intro s h; simp [cleanupHandlers] at h
  | succ m ih =>
      cases hlast : p.lru.getLast? with
      | none => intro s h; simp [cleanupHandlers, hlast] at h
      | some e =>
          rw [cleanupHandlers_cons p m e hlast]
          intro s h
          rcases List.mem_cons.mp h with h | h
      -- popped head: its uid is e.uid, already absent from cleanupRemove
          · subst h
            refine ⟨?_, ?_, ?_⟩
            · intro kv hkv
              have h2 := cleanupHandlers_elements_sub (cleanupRemove p e) m kv hkv
              simp only [cleanupRemove, List.mem_filter, decide_eq_true_eq] at h2
              exact h2.2
            · intro hu
              have h2 := cleanupHandlers_lrumap_sub (cleanupRemove p e) m _ hu
              simp only [cleanupRemove, List.mem_filter, decide_eq_true_eq] at h2
              exact h2.2 rfl
            · intro x hx
              rw [cleanupHandlers_lru_take] at hx
              have hx2 : x ∈ (cleanupRemove p e).lru := (List.take_sublist _ _).subset hx
              exact dropLast_uid_ne p e hwf.2.1 hlast x hx2
          · exact ih (cleanupRemove p e) (poolWF_cleanupRemove p e hwf hlast) s h

theorem lookup_some_mem (p : handlerPool) (uid : String) (e : poolElement)
    (h : p.lookup uid = some e) : (uid, e) ∈ p.elements := by
  unfold handlerPool.lookup at h
  cases hfind : p.elements.find? (fun kv => kv.1 == uid) with
  | none => rw [hfind] at h; cases h
  | some kv =>
      rw [hfind] at h
      have hkv : kv ∈ p.elements := List.mem_of_find?_eq_some hfind
      have hkey : kv.1 = uid := by
        have := List.find?_some hfind
        simpa using this
      have he : e = kv.2 := by
        simpa using h.symm
      rw [he, ← hkey]
      exact hkv

theorem lookup_none_fresh (p : handlerPool) (uid : String)
    (h : p.lookup uid = none) : ∀ kv ∈ p.elements, kv.1 ≠ uid := by
  intro kv hkv
  unfold handlerPool.lookup at h
  cases hfind : p.elements.find? (fun kv => kv.1 == uid) with
  | some kv2 => rw [hfind] at h; cases h
  | none =>
      have := List.find?_eq_none.mp hfind kv hkv
      simpa using this

theorem cleanupHandlers_maxPoolSize (p : handlerPool) (n : Nat) :
    (cleanupHandlers p n).1.maxPoolSize = p.maxPoolSize := by
  induction n generalizing p with
  | zero => simp [cleanupHandlers]
  | succ m ih =>
      cases hlast : p.lru.getLast? with
      | none => simp [cleanupHandlers, hlast]
      | some e =>
          rw [cleanupHandlers_cons p m e hlast]
          exact ih (cleanupRemove p e)

theorem poolWF_insert (q : handlerPool) (uid : String)
    (hwf : poolWF q) (hfresh : ∀ kv ∈ q.elements, kv.1 ≠ uid) :
    poolWF { q with
      elements := (uid, ⟨uid, false⟩) :: q.elements,
      lru := (⟨uid, false⟩ : poolElement) :: q.lru,
      lrumap := uid :: q.lrumap } := by
  obtain ⟨hE, hB, hM, hEM, hME, hBE, hKey⟩ := hwf
  have hBfresh : ∀ x ∈ q.lru, x.uid ≠ uid := by
    intro x hx
    exact hfresh (x.uid, x) (hBE x hx)
  have hMfresh : uid ∉ q.lrumap := by
    intro hu
    obtain ⟨kv, hkv, hkveq⟩ := List.mem_map.mp (hME uid hu)
    exact hfresh kv hkv hkveq
  refine ⟨?_, ?_, ?_, ?_, ?_, ?_, ?_⟩
  · rw [List.map_cons, List.nodup_cons]
    refine ⟨?_, hE⟩
    intro hu
    obtain ⟨kv, hkv, hkveq⟩ := List.mem_map.mp hu
    exact hfresh kv hkv hkveq
  · rw [List.map_cons, List.nodup_cons]
    refine ⟨?_, hB⟩
    intro hu
    obtain ⟨x, hx, hxeq⟩ := List.mem_map.mp hu
    exact hBfresh x hx hxeq
  · exact List.nodup_cons.mpr ⟨hMfresh, hM⟩
  · intro kv hkv
    rcases List.mem_cons.mp hkv with h | h
    · subst h
      exact ⟨List.mem_cons_self _ _, by simp⟩
    · obtain ⟨h1, h2⟩ := hEM kv h
      exact ⟨List.mem_cons_of_mem _ h1, by rw [List.map_cons]; exact List.mem_cons_of_mem _ h2⟩
  · intro u hu
    rcases List.mem_cons.mp hu with h | h
    · subst h
      exact List.mem_map.mpr ⟨(u, ⟨u, false⟩), List.mem_cons_self _ _, rfl⟩
    · obtain ⟨kv, hkv, hkveq⟩ := List.mem_map.mp (hME u h)
      exact List.mem_map.mpr ⟨kv, List.mem_cons_of_mem _ hkv, hkveq⟩
  · intro x hx
    rcases List.mem_cons.mp hx with h | h
    · subst h
      exact List.mem_cons_self _ _
    · exact List.mem_cons_of_mem _ (hBE x h)
  · intro kv hkv
    rcases List.mem_cons.mp hkv with h | h
    · subst h; rfl
    · exact hKey kv h

theorem moveToFront_perm (p : handlerPool) (uid : String) (e : poolElement)
    (hwf : poolWF p) (hlook : p.lookup uid = some e) :
    (e :: p.lru.eraseP (fun x => x.uid == uid)).Perm p.lru := by
  obtain ⟨hE, hB, hM, hEM, hME, hBE, hKey⟩ := hwf
  have hmem : (uid, e) ∈ p.elements := lookup_some_mem p uid e hlook
  have heuid : e.uid = uid := hKey (uid, e) hmem
  have hmemLru : e ∈ p.lru := by
    obtain ⟨x, hx, hxeq⟩ := List.mem_map.mp (hEM (uid, e) hmem).2
    have hxuid : x.uid = uid := hxeq
    have hxE : (uid, x) ∈ p.elements := by
      have h2 := hBE x hx
      rw [hxuid] at h2
      exact h2
    have hxe : x = e := nodup_keys_unique p.elements hE uid x e hxE hmem
    rw [← hxe]
    exact hx
  have hpred : (fun x : poolElement => x.uid == uid) e = true := by
    simp [heuid]
  obtain ⟨a, l₁, l₂, hl₁, hpa, hl, hep⟩ :=
    List.exists_of_eraseP (p := fun x : poolElement => x.uid == uid) hmemLru hpred
  have hauid : a.uid = uid := by simpa using hpa
  have hae : a = e := by
    have haE : (uid, a) ∈ p.elements := by
      have h2 := hBE a (by rw [hl]; simp)
      rw [hauid] at h2
      exact h2
    exact nodup_keys_unique p.elements hE uid a e haE hmem
  rw [hep, hl, hae]
  exact List.perm_middle.symm

theorem getElement_preserves (p : handlerPool) (uid : String)
    (hwf : poolWF p) (hsize : p.lru.length ≤ p.maxPoolSize + 1) :
    poolWF (getElement p uid).1 ∧
    (getElement p uid).1.lru.length ≤ p.maxPoolSize + 1 ∧
    (getElement p uid).1.maxPoolSize = p.maxPoolSize ∧
    (p.lookup uid = none → p.maxPoolSize < p.lru.length →
      (getElement p uid).1.lru.length
        = p.lru.length - (1 + p.maxPoolSize / 10) + 1) := by
  cases hlook : p.lookup uid with
  | some e =>
      by_cases hstop : e.stopped = true
      · have hred : (getElement p uid).1 = p := by
          simp only [getElement, hlook, hstop, if_true]
        rw [hred]
        exact ⟨hwf, hsize, rfl, by intro h hov; exact Option.noConfusion h⟩
      · have hstop' : e.stopped = false := by
          cases h : e.stopped
          · rfl
          · exact absurd h hstop
        have hred : (getElement p uid).1
            = { p with lru := e :: p.lru.eraseP (fun x => x.uid == uid) } := by
          simp only [getElement, hlook, hstop', Bool.false_eq_true, if_false]
        rw [hred]
        have hperm := moveToFront_perm p uid e hwf hlook
        obtain ⟨hE, hB, hM, hEM, hME, hBE, hKey⟩ := hwf
        refine ⟨⟨hE, ?_, hM, ?_, hME, ?_, hKey⟩, ?_, rfl,
          by intro h hov; exact Option.noConfusion h⟩
        · exact ((hperm.map poolElement.uid).nodup_iff).mpr hB
        · intro kv hkv
          refine ⟨(hEM kv hkv).1, ?_⟩
          exact ((hperm.map poolElement.uid).mem_iff).mpr (hEM kv hkv).2
        · intro x hx
          exact hBE x (hperm.mem_iff.mp hx)
        · show (e :: p.lru.eraseP (fun x => x.uid == uid)).length ≤ p.maxPoolSize + 1
          rw [hperm.length_eq]
          exact hsize
  | none =>
      have hfresh := lookup_none_fresh p uid hlook
      by_cases hover : p.maxPoolSize < p.lru.length
      · have hred : (getElement p uid).1
            = { (cleanupHandlers p (1 + p.maxPoolSize / 10)).1 with
                elements := (uid, ⟨uid, false⟩) ::
                  (cleanupHandlers p (1 + p.maxPoolSize / 10)).1.elements,
                lru := (⟨uid, false⟩ : poolElement) ::
                  (cleanupHandlers p (1 + p.maxPoolSize / 10)).1.lru,
                lrumap := uid :: (cleanupHandlers p (1 + p.maxPoolSize / 10)).1.lrumap } := by
          simp only [getElement, hlook, hover, if_true]
        rw [hred]
        have hwf1 := poolWF_cleanupHandlers p (1 + p.maxPoolSize / 10) hwf
        have hfresh1 : ∀ kv ∈ (cleanupHandlers p (1 + p.maxPoolSize / 10)).1.elements,
            kv.1 ≠ uid := by
          intro kv hkv
          exact hfresh kv (cleanupHandlers_elements_sub p _ kv hkv)
        have hlen1 : (cleanupHandlers p (1 + p.maxPoolSize / 10)).1.lru.length
            = p.lru.length - (1 + p.maxPoolSize / 10) := by
          rw [cleanupHandlers_lru_take, List.length_take]
          omega
        refine ⟨poolWF_insert _ uid hwf1 hfresh1, ?_, ?_, ?_⟩
        · simp only [List.length_cons, hlen1]
          omega
        · exact cleanupHandlers_maxPoolSize p _
        · intro _ _
          simp only [List.length_cons, hlen1]
      · have hred : (getElement p uid).1
            = { p with
                elements := (uid, ⟨uid, false⟩) :: p.elements,
                lru := (⟨uid, false⟩ : poolElement) :: p.lru,
                lrumap := uid :: p.lrumap } := by
          simp only [getElement, hlook, hover, if_false]
        rw [hred]
        refine ⟨poolWF_insert p uid hwf hfresh, ?_, rfl, ?_⟩
        · simp only [List.length_cons]
          omega
        · intro _ h
          exact absurd h hover

/-- C2 counterexample: a pool holding a Stopped handler for uid "7"
does not remove and reconstruct it on `getElement`: the call returns
`(nil, false, errElementStopped)` and leaves the pool unchanged, the
Stopped element still present. -/
theorem C2_stopped_counterexample :
    getElement (⟨[("7", ⟨"7", true⟩)], [⟨"7", true⟩], ["7"], 5⟩ : handlerPool) "7"
      = ((⟨[("7", ⟨"7", true⟩)], [⟨"7", true⟩], ["7"], 5⟩ : handlerPool), none, false,
         some PoolErr.elementStopped) := by
  decide

/-- C2 (amended): when `getElement` finds an element whose handler is
Stopped it does not remove or recreate it; it returns
`(nil, false, errElementStopped)` with the pool unchanged.  A Stopped
handler is never handed to the caller. -/
theorem C2_stopped_rejected (p : handlerPool) (uid : String) (e : poolElement)
    (hlook : p.lookup uid = some e) (hstop : e.stopped = true) :
    getElement p uid = (p, none, false, some PoolErr.elementStopped) := by
  simp only [getElement, hlook, hstop, if_true]

/-- C2 witness: the amended statement applied to a two-element pool
whose uid "42" handler is Stopped. -/
theorem C2_stopped_rejected_witness :
    getElement (⟨[("1", ⟨"1", false⟩), ("42", ⟨"42", true⟩)],
        [⟨"42", true⟩, ⟨"1", false⟩], ["42", "1"], 3⟩ : handlerPool) "42"
      = ((⟨[("1", ⟨"1", false⟩), ("42", ⟨"42", true⟩)],
          [⟨"42", true⟩, ⟨"1", false⟩], ["42", "1"], 3⟩ : handlerPool), none, false,
         some PoolErr.elementStopped) :=
  C2_stopped_rejected _ "42" ⟨"42", true⟩ (by decide) rfl

/-- C3 counterexample: with `max_pool_size = 1`, acquiring the two
distinct uids "a" and "b" on an empty pool leaves two elements in the
pool — the eviction check runs before the insertion, so the size after
an Acquire can exceed `max_pool_size`. -/
theorem C3_size_counterexample :
    (getElement (getElement (⟨[], [], [], 1⟩ : handlerPool) "a").1 "b").1.lru.length = 2 ∧
    (⟨[], [], [], 1⟩ : handlerPool).maxPoolSize = 1 := by
  decide

/-- C3 (amended): `getElement` preserves the pool invariants and the
bound `|pool| ≤ max_pool_size + 1` (not `max_pool_size`): the size
check runs before the insertion, and when the pool is over the bound on
a miss the eviction batch is `1 + max_pool_size/10` elements (not
`ceil(max_pool_size/10)`), after which the new element is inserted. -/
theorem C3_pool_bound (p : handlerPool) (uid : String)
    (hwf : poolWF p) (hsize : p.lru.length ≤ p.maxPoolSize + 1) :
    poolWF (getElement p uid).1 ∧
    (getElement p uid).1.lru.length ≤ p.maxPoolSize + 1 ∧
    (getElement p uid).1.maxPoolSize = p.maxPoolSize ∧
    (p.lookup uid = none → p.maxPoolSize < p.lru.length →
      (getElement p uid).1.lru.length
        = p.lru.length - (1 + p.maxPoolSize / 10) + 1) :=
  getElement_preserves p uid hwf hsize

/-- C3 witness: the amended bound applied to an empty pool with
`max_pool_size = 1`. -/
theorem C3_pool_bound_witness :
    (getElement (⟨[], [], [], 1⟩ : handlerPool) "a").1.lru.length ≤ 2 :=
  (C3_pool_bound (⟨[], [], [], 1⟩ : handlerPool) "a" (by decide) (by decide)).2.1

/-- C9: `cleanupHandlers n` pops at most `n` elements from the LRU
back (exactly `min n |lru|`), marks each popped handler Stopped, and
removes each popped uid from `elements`, the LRU list and the
lru-index, preserving the pool invariants; `stopHandlers` (Cleanup over
the whole pool) leaves the pool empty with every popped handler
Stopped. -/
theorem C9_cleanup_spec (p : handlerPool) (n : Nat) (hwf : poolWF p) :
    poolWF (cleanupHandlers p n).1 ∧
    (cleanupHandlers p n).1.lru = p.lru.take (p.lru.length - n) ∧
    (cleanupHandlers p n).2.length = min n p.lru.length ∧
    (∀ s ∈ (cleanupHandlers p n).2, s.stopped = true) ∧
    (∀ s ∈ (cleanupHandlers p n).2,
      (∀ kv ∈ (cleanupHandlers p n).1.elements, kv.1 ≠ s.uid) ∧
      s.uid ∉ (cleanupHandlers p n).1.lrumap ∧
      (∀ x ∈ (cleanupHandlers p n).1.lru, x.uid ≠ s.uid)) ∧
    (stopHandlers p).1.elements = [] ∧
    (stopHandlers p).1.lru = [] ∧
    (stopHandlers p).1.lrumap = [] ∧
    (stopHandlers p).2.length = p.lru.length ∧
    (∀ s ∈ (stopHandlers p).2, s.stopped = true) := by
  have hwfS := poolWF_cleanupHandlers p p.lru.length hwf
  have hlruS : (stopHandlers p).1.lru = [] := by
    show (cleanupHandlers p p.lru.length).1.lru = []
    rw [cleanupHandlers_lru_take]
    simp
  have hES : (stopHandlers p).1.elements = [] := by
    rw [List.eq_nil_iff_forall_not_mem]
    intro kv hkv
    have h2 := (hwfS.2.2.2.1 kv hkv).2
    rw [show (cleanupHandlers p p.lru.length).1.lru = [] from hlruS] at h2
    simp at h2
  have hMS : (stopHandlers p).1.lrumap = [] := by
    rw [List.eq_nil_iff_forall_not_mem]
    intro u hu
    have h2 := hwfS.2.2.2.2.1 u hu
    rw [show (cleanupHandlers p p.lru.length).1.elements = [] from hES] at h2
    simp at h2
  refine ⟨poolWF_cleanupHandlers p n hwf, cleanupHandlers_lru_take p n,
    cleanupHandlers_popped_len p n, cleanupHandlers_popped_stopped p n,
    cleanupHandlers_removed p n hwf, hES, hlruS, hMS, ?_,
    cleanupHandlers_popped_stopped p p.lru.length⟩
  show (cleanupHandlers p p.lru.length).2.length = p.lru.length
  rw [cleanupHandlers_popped_len]
  omega

/-- C9 witness: the cleanup contract applied with `n = 1` to a
well-formed two-element pool. -/
theorem C9_cleanup_witness :
    (cleanupHandlers (⟨[("1", ⟨"1", false⟩), ("2", ⟨"2", false⟩)],
        [⟨"2", false⟩, ⟨"1", false⟩], ["2", "1"], 10⟩ : handlerPool) 1).2.length = 1 ∧
    (stopHandlers (⟨[("1", ⟨"1", false⟩), ("2", ⟨"2", false⟩)],
        [⟨"2", false⟩, ⟨"1", false⟩], ["2", "1"], 10⟩ : handlerPool)).1.elements = [] :=
  ⟨(C9_cleanup_spec (⟨[("1", ⟨"1", false⟩), ("2", ⟨"2", false⟩)],
      [⟨"2", false⟩, ⟨"1", false⟩], ["2", "1"], 10⟩ : handlerPool) 1 (by decide)).2.2.1,
   (C9_cleanup_spec (⟨[("1", ⟨"1", false⟩), ("2", ⟨"2", false⟩)],
      [⟨"2", false⟩, ⟨"1", false⟩], ["2", "1"], 10⟩ : handlerPool) 1 (by decide)).2.2.2.2.2.1⟩

end SyncStorage
